import Mathlib

/-!
Verification of the operation monitor and modal dialog engine of `ddi.py`
(an operator console for block-device imaging).

Each definition is a shallow embedding of the corresponding piece of the
Python source; theorems settle the specification claims against those
definitions.  Strings are modelled as `List Char`, Python integers as `ℤ`
(or `ℕ` where the source value is a length or a parsed decimal), and the
source's float arithmetic as exact arithmetic over `ℚ`.
-/

namespace Ddi

/-! ### String helpers

Python's substring test `needle in hay` (used at
`"No space left on device" in stderr_text`, ddi.py lines 2199/2671) is
modelled by `List.isInfixOf`-style search over the characters. -/

/-- Model of Python `needle in hay` substring containment on strings. -/
def containsSub (needle : List Char) : List Char → Bool
  | [] => needle.isEmpty
  | c :: t => needle.isPrefixOf (c :: t) || containsSub needle t

theorem containsSub_iff_isSub (needle hay : List Char) :
    containsSub needle hay = true ↔ needle <:+: hay := by
  induction hay with
  | nil =>
    simp [containsSub, List.isEmpty_iff, List.infix_nil]
  | cons c t ih =>
    simp [containsSub, Bool.or_eq_true, ih, List.isPrefixOf_iff_prefix,
      List.infix_cons_iff]

/-! ### C1 : success policy of the monitor

Embedding of the exit-code check shared by `run_dd_with_progress`
(ddi.py 2194-2201) and `run_dd_with_block_map` (ddi.py 2666-2673):

    operation_succeeded = False
    if process.returncode == 0:
        operation_succeeded = True
    elif process.returncode == 1 and "No space left on device" in stderr_text:
        operation_succeeded = True
-/

/-- The diagnostic phrase granting the exit-code-1 amnesty. -/
def noSpaceMsg : List Char := "No space left on device".data

/-- Success flag computed by the monitor after the child exits
(`run_dd_with_progress` / `run_dd_with_block_map`). -/
def operation_succeeded (returncode : ℤ) (stderrText : List Char) : Bool :=
  if returncode = 0 then true
  else if returncode = 1 ∧ containsSub noSpaceMsg stderrText = true then true
  else false

/-- C1: For every completed operation run, the success flag returned by the
monitor is true iff the child's exit code is 0, or the exit code is 1 and the
accumulated diagnostic text contains the substring
"No space left on device"; every other exit code yields success = false. -/
theorem operation_succeeded_iff (returncode : ℤ) (stderrText : List Char) :
    operation_succeeded returncode stderrText = true ↔
      returncode = 0 ∨ (returncode = 1 ∧ noSpaceMsg <:+: stderrText) := by
  unfold operation_succeeded
  split_ifs with h0 h1
  · simp [h0]
  · simp [h0, h1.1, h1.2, (containsSub_iff_isSub noSpaceMsg stderrText).mp h1.2]
  · push_neg at h1
    simp only [Bool.false_eq_true, false_iff]
    rintro (h | ⟨h1', hsub⟩)
    · exact h0 h
    · exact h1 h1' ((containsSub_iff_isSub noSpaceMsg stderrText).mpr hsub)

/-! ### C2 : percentage computation

Embedding of (ddi.py 2166-2169, identical in `run_dd_with_block_map`):

    percentage = (bytes_copied / total_size_bytes) * 100 if total_size_bytes > 0 else 0
    percentage = min(percentage, 100)

The Python float arithmetic is modelled exactly over `ℚ`. -/

/-- Percentage shown by the monitor for a parsed byte count. -/
def percentage (bytesCopied totalSizeBytes : ℕ) : ℚ :=
  min (if 0 < totalSizeBytes
        then ((bytesCopied : ℚ) / (totalSizeBytes : ℚ)) * 100
        else 0)
      100

/-- C2: the computed percentage equals `min 100 (100*bytesCopied/totalSizeBytes)`
when the total size is positive, equals 0 when the total size is 0, and always
lies in `[0, 100]` even when `bytesCopied` exceeds `totalSizeBytes`. -/
theorem percentage_spec (bytesCopied totalSizeBytes : ℕ) :
    percentage bytesCopied totalSizeBytes =
      (if 0 < totalSizeBytes
        then min 100 ((100 * (bytesCopied : ℚ)) / (totalSizeBytes : ℚ))
        else 0)
    ∧ 0 ≤ percentage bytesCopied totalSizeBytes
    ∧ percentage bytesCopied totalSizeBytes ≤ 100 := by
  unfold percentage
  split_ifs with ht
  · refine ⟨?_, ?_, min_le_right _ _⟩
    · rw [min_comm]
      congr 1
      ring
    · have hb : (0 : ℚ) ≤ (bytesCopied : ℚ) / (totalSizeBytes : ℚ) * 100 := by
        positivity
      simp [le_min_iff, hb]
  · norm_num

/-! ### C3 : error-range bookkeeping of `run_dd_with_progress`

Line classification (ddi.py 2074-2075):

    dd_re = re.compile(r"(\d+)\s+bytes")
    error_re = re.compile(r"(error reading|error writing|Input/output error|
                            Cannot allocate memory)", re.IGNORECASE)

`isErrorLine` models `error_re.search` (case-insensitive phrase containment);
`ddSearch` models `dd_re.search` followed by `int(match.group(1))`: the
leftmost maximal run of ASCII digits followed by whitespace and the literal
"bytes".  (For this pattern the regex engine's greedy matching never
backtracks into the digit run, since a digit is neither whitespace nor `b`.) -/

/-- Decimal value of a digit run, as computed by Python `int`. -/
def natOfDigits (ds : List Char) : ℕ :=
  ds.foldl (fun n c => 10 * n + (c.toNat - 48)) 0

/-- Attempt to match `(\d+)\s+bytes` at the head of the list. -/
def matchBytesAt (l : List Char) : Option ℕ :=
  let ds := l.takeWhile Char.isDigit
  let rest := l.dropWhile Char.isDigit
  if ds.isEmpty then none
  else
    let ws := rest.takeWhile Char.isWhitespace
    let rest2 := rest.dropWhile Char.isWhitespace
    if ws.isEmpty then none
    else if "bytes".data.isPrefixOf rest2 then some (natOfDigits ds) else none

/-- Model of `dd_re.search(line)`: leftmost match of `(\d+)\s+bytes`. -/
def ddSearch : List Char → Option ℕ
  | [] => none
  | c :: t =>
    match matchBytesAt (c :: t) with
    | some n => some n
    | none => ddSearch t

/-- The I/O-error phrases of `error_re`, in lower case. -/
def errorPhrases : List (List Char) :=
  ["error reading".data, "error writing".data, "input/output error".data,
   "cannot allocate memory".data]

/-- Model of `error_re.search(line)`: case-insensitive containment of one of
the four error phrases. -/
def isErrorLine (line : List Char) : Bool :=
  errorPhrases.any fun p => containsSub p (line.map Char.toLower)

/-- Loop state of `run_dd_with_progress` relevant to error tracking
(ddi.py 2083, 2088-2089): `last_bytes_copied`, `last_error_position`,
`error_ranges`. -/
structure MonState where
  lastBytes : ℕ
  lastErrorPos : ℕ
  errorRanges : List (ℕ × ℕ)
deriving DecidableEq

/-- Processing of one nonempty diagnostic line by the monitor loop body
(ddi.py 2149-2164, 2181): an error match records the last seen byte count as
pending; a byte-count match appends an ErrorRange and clears the pending
marker, but only when the pending offset is positive, and then updates
`last_bytes_copied`. -/
def stepLine (st : MonState) (line : List Char) : MonState :=
  let st1 := if isErrorLine line then { st with lastErrorPos := st.lastBytes } else st
  match ddSearch line with
  | none => st1
  | some bc =>
    let st2 :=
      if 0 < st1.lastErrorPos then
        { st1 with errorRanges := st1.errorRanges ++ [(st1.lastErrorPos, bc)],
                   lastErrorPos := 0 }
      else st1
    { st2 with lastBytes := bc }

/-- Initial monitor state (ddi.py 2083, 2088-2089). -/
def initMonState : MonState := ⟨0, 0, []⟩

/-- A concrete I/O-error diagnostic line (matches `error_re`, not `dd_re`). -/
def ioErrorLine : List Char :=
  "dd: error reading '/dev/sda': Input/output error".data

/-- A concrete progress line reporting 150000 bytes. -/
def progressLine150000 : List Char :=
  "150000 bytes (150 kB) copied, 3 s, 50 kB/s".data

/-- C3 counterexample: from the initial monitor state (last seen byte count
0), an I/O-error line followed by a progress line reporting 150000 bytes
records NO ErrorRange at all — the claimed range `(0, 150000)` is never
appended, because the code only appends when the pending offset is
positive. -/
theorem errorRange_zero_offset_dropped :
    (stepLine (stepLine initMonState ioErrorLine) progressLine150000).errorRanges = []
    ∧ (0, 150000) ∉
        (stepLine (stepLine initMonState ioErrorLine) progressLine150000).errorRanges := by
  decide

/-- C3 (amended): whenever an I/O-error line is observed while the last seen
byte count is POSITIVE, that byte count is remembered as pending, and on the
next line containing a byte count an ErrorRange from the pending offset to
the current byte count is appended exactly once and the pending marker is
cleared. -/
theorem errorRange_recorded (st : MonState) (ln1 ln2 : List Char) (bc : ℕ)
    (herr : isErrorLine ln1 = true) (hnb : ddSearch ln1 = none)
    (hb : ddSearch ln2 = some bc) (hpos : 0 < st.lastBytes) :
    (stepLine (stepLine st ln1) ln2).errorRanges
        = st.errorRanges ++ [(st.lastBytes, bc)]
    ∧ (stepLine (stepLine st ln1) ln2).lastErrorPos = 0
    ∧ (stepLine (stepLine st ln1) ln2).lastBytes = bc := by
  have h1 : stepLine st ln1 = { st with lastErrorPos := st.lastBytes } := by
    unfold stepLine
    rw [hnb]
    simp [herr]
  rw [h1]
  unfold stepLine
  rw [hb]
  by_cases herr2 : isErrorLine ln2 = true <;> simp [herr2, hpos]

/-- C3 witness: the spec's end-to-end scenario — an "Input/output error" line
observed when the last byte count was 100000, followed by a progress line
reporting 150000, records the ErrorRange (100000, 150000) exactly once. -/
theorem errorRange_recorded_witness :
    (stepLine (stepLine ⟨100000, 0, []⟩ ioErrorLine) progressLine150000).errorRanges
        = [(100000, 150000)]
    ∧ (stepLine (stepLine ⟨100000, 0, []⟩ ioErrorLine) progressLine150000).lastErrorPos
        = 0 := by
  have h := errorRange_recorded ⟨100000, 0, []⟩ ioErrorLine progressLine150000 150000
    (by decide) (by decide) (by decide) (by decide)
  exact ⟨by simpa using h.1, h.2.1⟩

/-! ### C4 : block-map cell glyphs (`_draw_block_map`, ddi.py 2392-2430)

    bytes_per_char = total_size_bytes / total_chars if total_chars > 0 else 1
    char_start_byte = int(char_index * bytes_per_char)
    char_end_byte = int((char_index + 1) * bytes_per_char)
    has_error = any(not (char_end_byte < s or char_start_byte > e) for (s, e) ...)
    glyph = "X" if has_error else "█"/"▒"/"·" by comparison with filled_chars

Float arithmetic is modelled exactly over `ℚ`; `int()` of a nonnegative
value is the floor. -/

/-- Glyph drawn for one cell of the block map. -/
inductive Glyph
  | error
  | complete
  | writing
  | pending
deriving DecidableEq

/-- `bytes_per_char` (ddi.py 2399). -/
def bytes_per_char (totalSizeBytes totalChars : ℕ) : ℚ :=
  if 0 < totalChars then (totalSizeBytes : ℚ) / (totalChars : ℚ) else 1

/-- `char_start_byte` (ddi.py 2408). -/
def char_start_byte (totalSizeBytes totalChars idx : ℕ) : ℤ :=
  ⌊(idx : ℚ) * bytes_per_char totalSizeBytes totalChars⌋

/-- `char_end_byte` (ddi.py 2409). -/
def char_end_byte (totalSizeBytes totalChars idx : ℕ) : ℤ :=
  ⌊((idx : ℚ) + 1) * bytes_per_char totalSizeBytes totalChars⌋

/-- `has_error` for one cell (ddi.py 2412-2417): the cell is flagged when
NOT (`char_end_byte < error_start` or `char_start_byte > error_end`). -/
def has_error (cs ce : ℤ) (ranges : List (ℕ × ℕ)) : Bool :=
  ranges.any fun r => !(decide (ce < (r.1 : ℤ)) || decide (cs > (r.2 : ℤ)))

/-- Glyph selection for a cell given its byte bounds (ddi.py 2419-2430). -/
def cellGlyph (idx filled : ℕ) (cs ce : ℤ) (ranges : List (ℕ × ℕ)) : Glyph :=
  if has_error cs ce ranges then .error
  else if idx < filled then .complete
  else if idx = filled then .writing
  else .pending

/-- Glyph drawn for cell `idx` of the block map. -/
def blockMapGlyph (totalSizeBytes totalChars idx filled : ℕ)
    (ranges : List (ℕ × ℕ)) : Glyph :=
  cellGlyph idx filled (char_start_byte totalSizeBytes totalChars idx)
    (char_end_byte totalSizeBytes totalChars idx) ranges

theorem has_error_iff (cs ce : ℤ) (ranges : List (ℕ × ℕ)) :
    has_error cs ce ranges = true ↔
      ∃ r ∈ ranges, (r.1 : ℤ) ≤ ce ∧ cs ≤ (r.2 : ℤ) := by
  unfold has_error
  simp [List.any_eq_true, not_lt, not_or]

/-- C4 counterexample: with total size 100 over 10 cells, cell 1 occupies the
half-open byte interval [10, 20); the recorded ErrorRange (20, 30) does not
intersect it (even read as the closed interval [20, 30]), yet the cell is
drawn with the error glyph, because the code's overlap test does not treat
the cell interval as half-open. -/
theorem blockMap_boundary_cell_flagged :
    blockMapGlyph 100 10 1 0 [(20, 30)] = Glyph.error
    ∧ char_start_byte 100 10 1 = 10
    ∧ char_end_byte 100 10 1 = 20
    ∧ Finset.Ico 10 20 ∩ Finset.Icc 20 30 = (∅ : Finset ℕ) := by
  refine ⟨?_, ?_, ?_, by decide⟩
  · unfold blockMapGlyph cellGlyph char_start_byte char_end_byte bytes_per_char
    norm_num [has_error]
  · unfold char_start_byte bytes_per_char
    norm_num
  · unfold char_end_byte bytes_per_char
    norm_num

/-- C4 (amended): a cell is drawn with the error glyph iff the CLOSED
interval `[cellStartByte, cellEndByte]` meets the closed interval
`[startByte, endByte]` of at least one recorded ErrorRange, i.e. iff
`startByte ≤ cellEndByte` and `cellStartByte ≤ endByte` for some recorded
range; boundary-touching ranges therefore also flag the cell. -/
theorem blockMapGlyph_error_iff (totalSizeBytes totalChars idx filled : ℕ)
    (ranges : List (ℕ × ℕ)) :
    blockMapGlyph totalSizeBytes totalChars idx filled ranges = Glyph.error ↔
      ∃ r ∈ ranges,
        (r.1 : ℤ) ≤ char_end_byte totalSizeBytes totalChars idx
        ∧ char_start_byte totalSizeBytes totalChars idx ≤ (r.2 : ℤ) := by
  rw [← has_error_iff (char_start_byte totalSizeBytes totalChars idx)
        (char_end_byte totalSizeBytes totalChars idx) ranges]
  unfold blockMapGlyph cellGlyph
  cases h : has_error (char_start_byte totalSizeBytes totalChars idx)
      (char_end_byte totalSizeBytes totalChars idx) ranges
  · simp only [h, Bool.false_eq_true, if_false]
    split_ifs <;> simp
  · simp [h]

/-! ### C5 : final-warning confirmation gate (`show_final_warning`, ddi.py 1280-1294)

    user_input = win.getstr(...).decode('utf-8').strip()
    ...
    return user_input.upper() == "YES"

The captured input is stripped of leading/trailing whitespace before the
case-insensitive comparison. -/

/-- Python `str.strip()`: remove leading and trailing whitespace. -/
def pyStrip (s : List Char) : List Char :=
  ((s.dropWhile Char.isWhitespace).reverse.dropWhile Char.isWhitespace).reverse

/-- Acceptance test of `show_final_warning` on the captured input
(ddi.py 1283, 1294). -/
def show_final_warning (input : List Char) : Bool :=
  decide ((pyStrip input).map Char.toUpper = "YES".data)

theorem yes_data : "YES".data = ['Y', 'E', 'S'] := rfl

theorem char_toNat_ofNat {n : ℕ} (h : n.isValidChar) :
    (Char.ofNat n).toNat = n := by
  rw [Char.ofNat, dif_pos h]
  rfl

theorem char_toNat_injective {a b : Char} (h : a.toNat = b.toNat) : a = b := by
  rw [← Char.ofNat_toNat a, ← Char.ofNat_toNat b, h]

/-- `Char.toUpper` sends `c` to the upper-case letter `U` exactly when `c` is
`U` itself or the corresponding lower-case letter. -/
theorem toUpper_eq_upper {U L c : Char}
    (hU : 65 ≤ U.toNat ∧ U.toNat ≤ 90) (hL : L.toNat = U.toNat + 32) :
    c.toUpper = U ↔ c = U ∨ c = L := by
  unfold Char.toUpper
  by_cases h : 97 ≤ c.toNat ∧ c.toNat ≤ 122
  · rw [if_pos h]
    have hvalid : (c.toNat - 32).isValidChar := Or.inl (by omega)
    constructor
    · intro heq
      have : (Char.ofNat (c.toNat - 32)).toNat = U.toNat := by rw [heq]
      rw [char_toNat_ofNat hvalid] at this
      exact Or.inr (char_toNat_injective (by omega))
    · rintro (rfl | rfl)
      · omega
      · have : c.toNat - 32 = U.toNat := by omega
        rw [this, Char.ofNat_toNat]
  · rw [if_neg h]
    constructor
    · exact Or.inl
    · rintro (rfl | rfl)
      · rfl
      · exact absurd ⟨by omega, by omega⟩ h

theorem toUpper_of_whitespace {c : Char} (h : c.isWhitespace = true) :
    c.toUpper = c := by
  have h' : ((c = ' ' ∨ c = '\t') ∨ c = '\r') ∨ c = '\n' := by
    simpa [Char.isWhitespace, Bool.or_eq_true, decide_eq_true_eq] using h
  rcases h' with ((rfl | rfl) | rfl) | rfl <;> decide

theorem not_whitespace_of_toUpper_yes {c : Char}
    (hc : c.toUpper = 'Y' ∨ c.toUpper = 'E' ∨ c.toUpper = 'S') :
    c.isWhitespace = false := by
  cases hws : c.isWhitespace
  · rfl
  · rw [toUpper_of_whitespace hws] at hc
    rcases hc with rfl | rfl | rfl <;> exact absurd hws (by decide)

/-- C5 counterexample: the captured input `" YES"` is accepted although it is
not the literal token `YES` — not even up to case (its upper-casing differs
from that of `"YES"`), because the code strips surrounding whitespace before
comparing. -/
theorem final_warning_whitespace_accepted :
    show_final_warning " YES".data = true
    ∧ " YES".data ≠ "YES".data
    ∧ " YES".data.map Char.toUpper ≠ "YES".data.map Char.toUpper := by
  refine ⟨by decide, by decide, by decide⟩

/-- C5 (amended): `show_final_warning` returns true iff the captured input is
the token `YES` (case-insensitively, i.e. its upper-casing is `"YES"`)
surrounded by arbitrary — possibly empty — leading and trailing
whitespace. -/
theorem show_final_warning_iff (input : List Char) :
    show_final_warning input = true ↔
      ∃ l core r, input = l ++ core ++ r
        ∧ (∀ c ∈ l, c.isWhitespace = true)
        ∧ (∀ c ∈ r, c.isWhitespace = true)
        ∧ core.map Char.toUpper = "YES".data := by
  unfold show_final_warning
  rw [decide_eq_true_iff]
  constructor
  · intro h
    refine ⟨input.takeWhile Char.isWhitespace, pyStrip input,
      ((input.dropWhile Char.isWhitespace).reverse.takeWhile Char.isWhitespace).reverse,
      ?_, ?_, ?_, h⟩
    · conv_lhs =>
        rw [← List.takeWhile_append_dropWhile Char.isWhitespace input]
      rw [List.append_assoc]
      congr 1
      conv_lhs =>
        rw [← List.reverse_reverse (input.dropWhile Char.isWhitespace),
          ← List.takeWhile_append_dropWhile Char.isWhitespace
              (input.dropWhile Char.isWhitespace).reverse]
      rw [List.reverse_append]
      rfl
    · intro c hc
      exact List.mem_takeWhile_imp hc
    · intro c hc
      rw [List.mem_reverse] at hc
      exact List.mem_takeWhile_imp hc
  · rintro ⟨l, core, r, rfl, hl, hr, hcore⟩
    rw [yes_data] at hcore ⊢
    rcases core with _ | ⟨c1, _ | ⟨c2, _ | ⟨c3, _ | ⟨c4, t⟩⟩⟩⟩ <;> simp at hcore
    obtain ⟨h1, h2, h3⟩ := hcore
    have hw1 : ¬ (c1.isWhitespace = true) := by
      simp [not_whitespace_of_toUpper_yes (Or.inl h1)]
    have hw3 : ¬ (c3.isWhitespace = true) := by
      simp [not_whitespace_of_toUpper_yes (Or.inr (Or.inr h3))]
    unfold pyStrip
    rw [List.append_assoc, List.dropWhile_append_of_pos hl,
      List.cons_append, List.dropWhile_cons_of_neg hw1, ← List.cons_append,
      List.reverse_append,
      List.dropWhile_append_of_pos (by
        intro a ha
        rw [List.mem_reverse] at ha
        exact hr a ha)]
    simp only [List.reverse_cons, List.reverse_nil, List.nil_append,
      List.cons_append]
    rw [List.dropWhile_cons_of_neg hw3]
    simp [h1, h2, h3]

/-! ### C6 : text-input dialog (`get_input_string`, ddi.py 1097-1252)

The key loop (ddi.py 1147-1236) edits a buffer with a cursor; Enter breaks
with the buffer, a lone ESC (no byte immediately following) empties the
buffer and breaks, ESC followed by `[`/`O` consumes an escape sequence, and
mouse reports and other non-handled keys are filtered out.  After the loop
(ddi.py 1244-1245):

    if not input_str and default_value:
        input_str = default_value
-/

/-- One keyboard event seen by the `get_input_string` loop, after the mouse
filter.  `loneEsc` is an ESC with no immediately following byte; `escSeq` is
an ESC starting (and consuming) an escape sequence; `ignored` is any other
filtered or unhandled key. -/
inductive InKey
  | printable (c : Char)
  | enter
  | backspace
  | delete
  | left
  | right
  | home
  | endKey
  | loneEsc
  | escSeq
  | ignored
deriving DecidableEq

/-- Edit buffer and cursor of the input loop. -/
structure EditState where
  buf : List Char
  pos : ℕ
deriving DecidableEq

/-- Effect of one non-submitting key on the edit state (ddi.py 1203-1236). -/
def applyKey (maxLen : ℕ) (st : EditState) : InKey → EditState
  | .printable c =>
    if 32 ≤ c.toNat ∧ c.toNat ≤ 126 ∧ st.buf.length < maxLen then
      { buf := st.buf.take st.pos ++ [c] ++ st.buf.drop st.pos, pos := st.pos + 1 }
    else st
  | .backspace =>
    if 0 < st.pos then
      { buf := st.buf.take (st.pos - 1) ++ st.buf.drop st.pos, pos := st.pos - 1 }
    else st
  | .delete =>
    if st.pos < st.buf.length then
      { st with buf := st.buf.take st.pos ++ st.buf.drop (st.pos + 1) }
    else st
  | .left => if 0 < st.pos then { st with pos := st.pos - 1 } else st
  | .right => if st.pos < st.buf.length then { st with pos := st.pos + 1 } else st
  | .home => { st with pos := 0 }
  | .endKey => { st with pos := st.buf.length }
  | _ => st

/-- The key loop of `get_input_string`: returns the submitted buffer, or
`none` if the key sequence ends before a submission. -/
def inputLoop (maxLen : ℕ) : EditState → List InKey → Option (List Char)
  | _, [] => none
  | st, k :: ks =>
    match k with
    | .enter => some st.buf
    | .loneEsc => some []
    | _ => inputLoop maxLen (applyKey maxLen st k) ks

/-- `get_input_string` (ddi.py 1097-1252): run the key loop from an empty
buffer, then substitute a nonempty default for an empty result. -/
def get_input_string (maxLen : ℕ) (defaultValue : List Char)
    (keys : List InKey) : Option (List Char) :=
  (inputLoop maxLen ⟨[], 0⟩ keys).map
    fun s => if s = [] ∧ defaultValue ≠ [] then defaultValue else s

/-- C6: the code evaluated at the failing input.  With the nonempty default
"backup.img" supplied, a lone Esc returns the DEFAULT, not the empty string:
the post-loop default substitution (ddi.py 1244-1245) tests only buffer
emptiness, so it cannot distinguish Esc from Enter-on-empty-buffer, although
its own comment says it applies when the user "just pressed Enter".  (With an
empty default, lone Esc does submit the empty string, and Enter on an empty
buffer does substitute the default.) -/
theorem get_input_string_esc_returns_default :
    get_input_string 58 "backup.img".data [InKey.loneEsc]
        = some "backup.img".data
    ∧ get_input_string 58 [] [InKey.loneEsc] = some []
    ∧ get_input_string 58 "backup.img".data [InKey.enter]
        = some "backup.img".data := by
  refine ⟨by decide, by decide, by decide⟩

/-! ### C7 : display-mode toggling during a run (`run_dd_with_progress`,
ddi.py 2091-2181)

Each pass of the monitor loop first polls the keyboard (a `v`/`V` press flips
`current_mode`, clears the old renderer window and sets `first_draw = True`;
nothing is drawn by the renderers at that moment), then tries to read one
diagnostic line (an empty read sleeps and continues).  A renderer draw is
dispatched only when a line containing a byte count is parsed. -/

/-- The two display modes. -/
inductive DispMode
  | progress
  | blockmap
deriving DecidableEq

/-- Mode flip on a `v`/`V` press (ddi.py 2099). -/
def flipMode : DispMode → DispMode
  | .progress => .blockmap
  | .blockmap => .progress

/-- Loop state of `run_dd_with_progress` for mode/draw tracking. -/
structure RunState where
  mode : DispMode
  firstDraw : Bool
  mon : MonState
deriving DecidableEq

/-- One renderer dispatch (a call of `_draw_progress_bar` or
`_draw_block_map`, ddi.py 2172-2178). -/
structure DrawEvent where
  mode : DispMode
  bytesCopied : ℕ
  firstDraw : Bool
  errorRanges : List (ℕ × ℕ)
deriving DecidableEq

/-- One pass of the monitor loop: whether the toggle key was pressed during
the non-blocking poll, and the diagnostic line read (none = empty read). -/
structure LoopInput where
  toggled : Bool
  line : Option (List Char)
deriving DecidableEq

/-- One pass of the monitor loop body (ddi.py 2091-2181), returning the new
state and the renderer dispatches it performed. -/
def stepIter (st : RunState) (inp : LoopInput) : RunState × List DrawEvent :=
  let st1 := if inp.toggled
    then { st with mode := flipMode st.mode, firstDraw := true }
    else st
  match inp.line with
  | none => (st1, [])
  | some ln =>
    let mon := stepLine st1.mon ln
    match ddSearch ln with
    | none => ({ st1 with mon := mon }, [])
    | some bc =>
      ({ st1 with mon := mon, firstDraw := false },
        [⟨st1.mode, bc, st1.firstDraw, mon.errorRanges⟩])

/-- Initial loop state (ddi.py 2079, 2085): caller-supplied mode,
`first_draw = True`, fresh monitor state. -/
def initRunState (mode : DispMode) : RunState := ⟨mode, true, initMonState⟩

/-- Run the monitor loop over a list of passes, accumulating dispatches. -/
def runIters (st : RunState) (inps : List LoopInput) :
    RunState × List DrawEvent :=
  inps.foldl (fun acc inp =>
    ((stepIter acc.1 inp).1, acc.2 ++ (stepIter acc.1 inp).2)) (st, [])

/-- A concrete progress line reporting 100000 bytes. -/
def progressLine100000 : List Char :=
  "100000 bytes (100 kB) copied, 2 s, 50 kB/s".data

/-- C7 counterexample: a progress line reporting 100000 bytes followed by a
toggle press.  The mode flips to the block map, but the only renderer
dispatch in the whole trace is the progress-bar one: the last computed
sample is NOT redrawn by the newly active renderer at the toggle. -/
theorem toggle_no_immediate_redraw :
    (runIters (initRunState DispMode.progress)
        [⟨false, some progressLine100000⟩, ⟨true, none⟩]).2
      = [⟨DispMode.progress, 100000, true, []⟩]
    ∧ (runIters (initRunState DispMode.progress)
        [⟨false, some progressLine100000⟩, ⟨true, none⟩]).1.mode
      = DispMode.blockmap := by
  refine ⟨by decide, by decide⟩

/-- C7 (amended): a toggle press with no pending diagnostic line flips the
mode, forces `first_draw`, and dispatches nothing; the newly active renderer
first draws when the next byte-count line is parsed, with that line's sample
and a fresh window (`first_draw = true`). -/
theorem toggle_redraw_on_next_line (st : RunState) (ln : List Char) (bc : ℕ)
    (hb : ddSearch ln = some bc) :
    (stepIter st ⟨true, none⟩).2 = []
    ∧ (stepIter st ⟨true, none⟩).1.mode = flipMode st.mode
    ∧ (stepIter st ⟨true, none⟩).1.firstDraw = true
    ∧ ((stepIter (stepIter st ⟨true, none⟩).1 ⟨false, some ln⟩).2).map
          (fun e => (e.mode, e.bytesCopied, e.firstDraw))
        = [(flipMode st.mode, bc, true)] := by
  refine ⟨rfl, rfl, rfl, ?_⟩
  simp [stepIter, hb]

/-- C7 witness: from the initial progress-mode state, a toggle followed by a
progress line reporting 150000 bytes is drawn by the block-map renderer with
a fresh window. -/
theorem toggle_redraw_on_next_line_witness :
    ((stepIter (stepIter (initRunState DispMode.progress) ⟨true, none⟩).1
        ⟨false, some progressLine150000⟩).2).map
          (fun e => (e.mode, e.bytesCopied, e.firstDraw))
      = [(DispMode.blockmap, 150000, true)] := by
  have h := toggle_redraw_on_next_line (initRunState DispMode.progress)
    progressLine150000 150000 (by decide)
  simpa [flipMode, initRunState] using h.2.2.2

/-! ### C8 : log-pane scrolling (`handle_log_scroll_keys`, ddi.py 763-804)

    if key == curses.KEY_UP:      scroll_pos = max(0, scroll_pos - 1)
    elif key == curses.KEY_DOWN:  scroll_pos = min(max(0, total - visible), scroll_pos + 1)
    elif key == curses.KEY_PPAGE: scroll_pos = max(0, scroll_pos - visible)
    elif key == curses.KEY_NPAGE: scroll_pos = min(max(0, total - visible), scroll_pos + visible)
    elif key == curses.KEY_HOME:  scroll_pos = 0
    elif key == curses.KEY_END:   scroll_pos = max(0, total - visible)

with `total = len(log_messages)` and `visible = log_win_height - 2`; any
other key leaves the position unchanged. -/

/-- Scroll keys handled by `handle_log_scroll_keys`; `other` is any
unhandled key (position unchanged). -/
inductive ScrollKey
  | up
  | down
  | pageUp
  | pageDown
  | home
  | endKey
  | other
deriving DecidableEq

/-- New scroll position computed by `handle_log_scroll_keys`
(ddi.py 787-801). -/
def handle_log_scroll_keys (total visible pos : ℤ) : ScrollKey → ℤ
  | .up => max 0 (pos - 1)
  | .down => min (max 0 (total - visible)) (pos + 1)
  | .pageUp => max 0 (pos - visible)
  | .pageDown => min (max 0 (total - visible)) (pos + visible)
  | .home => 0
  | .endKey => max 0 (total - visible)
  | .other => pos

/-- C8: for every buffer state and every handled scroll key, the interval
`[0, max 0 (total - visible)]` is an invariant of the scroll offset: a
position inside it is mapped back inside it by every scroll operation. -/
theorem handle_log_scroll_keys_clamped (total visible pos : ℤ) (k : ScrollKey)
    (hv : 0 ≤ visible) (hpos : 0 ≤ pos)
    (hub : pos ≤ max 0 (total - visible)) :
    0 ≤ handle_log_scroll_keys total visible pos k
    ∧ handle_log_scroll_keys total visible pos k ≤ max 0 (total - visible) := by
  cases k <;> simp only [handle_log_scroll_keys] <;> omega

/-- C8 witness: in a log of 10 lines with 6 visible and offset 2, pressing
Down yields offset 3, inside `[0, 4]`. -/
theorem handle_log_scroll_keys_clamped_witness :
    0 ≤ handle_log_scroll_keys 10 6 2 ScrollKey.down
    ∧ handle_log_scroll_keys 10 6 2 ScrollKey.down ≤ max 0 (10 - 6) := by
  exact handle_log_scroll_keys_clamped 10 6 2 ScrollKey.down (by norm_num)
    (by norm_num) (by norm_num)

/-! ### C9, C10 : menu dialog (`get_menu_choice`, ddi.py 806-1095)

`get_menu_choice` returns -1 immediately for an empty item list
(ddi.py 808), then loops: in log-focused state, Tab or Esc return focus to
the menu and reset the scroll position to the bottom (ddi.py 861-875), any
other key scrolls the log; in menu state, Up/Down move the selection,
digits 1-9 select-and-return, `q`/`Q`/Esc return -1, Enter returns the
selection, Tab focuses the log, and the help/about overlays redraw without
changing the selection. -/

/-- Keys handled by the `get_menu_choice` loop; `other` covers F1/F12
(overlay redraws) and all unhandled keys. -/
inductive MenuKey
  | up
  | down
  | pageUp
  | pageDown
  | home
  | endKey
  | digit (d : Fin 9)
  | quit
  | enter
  | esc
  | tab
  | other
deriving DecidableEq

/-- Raw-key view used when a key reaches `handle_log_scroll_keys` from the
log-focused branch (ddi.py 876-878). -/
def keyToScroll : MenuKey → ScrollKey
  | .up => .up
  | .down => .down
  | .pageUp => .pageUp
  | .pageDown => .pageDown
  | .home => .home
  | .endKey => .endKey
  | _ => .other

/-- Loop state of `get_menu_choice`: selection index, focus flag
(ddi.py 824-825) and the handler's scroll position. -/
structure MenuState where
  currentRow : ℕ
  logFocused : Bool
  scrollPos : ℤ
deriving DecidableEq

/-- Key handling while the log pane has focus (ddi.py 861-878): Tab or Esc
return focus to the menu and bottom-anchor the scroll position; every other
key goes to `handle_log_scroll_keys`. -/
def menuStepFocused (total visible : ℤ) (st : MenuState) : MenuKey → MenuState
  | .tab => { st with logFocused := false, scrollPos := max 0 (total - visible) }
  | .esc => { st with logFocused := false, scrollPos := max 0 (total - visible) }
  | k => { st with scrollPos :=
      handle_log_scroll_keys total visible st.scrollPos (keyToScroll k) }

/-- Key handling while the menu has focus (ddi.py 879-1095).  `digit d`
stands for the key `'1' + d`, selecting item index `d` (ddi.py 884-896). -/
def menuStepDialog (nItems : ℕ) (st : MenuState) : MenuKey → MenuState × Option ℤ
  | .up => (if 0 < st.currentRow then { st with currentRow := st.currentRow - 1 } else st, none)
  | .down => (if st.currentRow + 1 < nItems then { st with currentRow := st.currentRow + 1 } else st, none)
  | .digit d => if (d : ℕ) < nItems then (st, some (d : ℕ)) else (st, none)
  | .quit => (st, some (-1))
  | .enter => (st, some (st.currentRow : ℤ))
  | .esc => (st, some (-1))
  | .tab => ({ st with logFocused := true }, none)
  | _ => (st, none)

/-- One pass of the `get_menu_choice` key loop (ddi.py 859-1095): the new
state and, when the dialog closes, its result. -/
def menuStep (nItems : ℕ) (total visible : ℤ) (st : MenuState) (k : MenuKey) :
    MenuState × Option ℤ :=
  if st.logFocused then (menuStepFocused total visible st k, none)
  else menuStepDialog nItems st k

/-- The `get_menu_choice` loop over a finite key sequence; `none` if the keys
run out before the dialog closes. -/
def menuLoop (nItems : ℕ) (total visible : ℤ) :
    MenuState → List MenuKey → Option ℤ
  | _, [] => none
  | st, k :: ks =>
    match menuStep nItems total visible st k with
    | (_, some r) => some r
    | (st2, none) => menuLoop nItems total visible st2 ks

/-- `get_menu_choice` (ddi.py 806-1095): an empty item list returns -1 at
once (ddi.py 808); otherwise the key loop runs from selection 0, menu
focus, bottom-anchored scroll. -/
def get_menu_choice (menuItems : List String) (total visible : ℤ)
    (keys : List MenuKey) : Option ℤ :=
  if menuItems.isEmpty then some (-1)
  else menuLoop menuItems.length total visible ⟨0, false, max 0 (total - visible)⟩ keys

theorem menuStep_keeps_focus (nItems : ℕ) (total visible : ℤ) (st : MenuState)
    (k : MenuKey) (hfoc : st.logFocused = true)
    (hk : k ≠ MenuKey.tab ∧ k ≠ MenuKey.esc) :
    (menuStep nItems total visible st k).1.logFocused = true := by
  cases k <;> simp_all [menuStep, menuStepFocused]

theorem foldl_menuStep_keeps_focus (nItems : ℕ) (total visible : ℤ)
    (ks : List MenuKey) :
    ∀ st : MenuState, st.logFocused = true →
      (∀ k ∈ ks, k ≠ MenuKey.tab ∧ k ≠ MenuKey.esc) →
      (ks.foldl (fun s k => (menuStep nItems total visible s k).1) st).logFocused
        = true := by
  induction ks with
  | nil => intro st hfoc _; exact hfoc
  | cons k ks ih =>
    intro st hfoc hks
    simp only [List.foldl_cons]
    exact ih _ (menuStep_keeps_focus nItems total visible st k hfoc
        (hks k (by simp))) (fun k2 hk2 => hks k2 (by simp [hk2]))

theorem menuStep_tab_focused (nItems : ℕ) (total visible : ℤ) (st : MenuState)
    (hfoc : st.logFocused = true) :
    (menuStep nItems total visible st MenuKey.tab).1.scrollPos
        = max 0 (total - visible)
    ∧ (menuStep nItems total visible st MenuKey.tab).1.logFocused = false := by
  simp [menuStep, menuStepFocused, hfoc]

/-- C9: starting from the menu, pressing Tab to focus the log pane, then any
sequence of non-Tab/non-Esc keys (scrolling wherever the operator likes),
then Tab again, leaves the scroll offset bottom-anchored at
`max 0 (total - visible)` and returns focus to the dialog. -/
theorem tab_resets_scroll (nItems : ℕ) (total visible : ℤ) (st : MenuState)
    (ks : List MenuKey) (hfoc : st.logFocused = false)
    (hks : ∀ k ∈ ks, k ≠ MenuKey.tab ∧ k ≠ MenuKey.esc) :
    (menuStep nItems total visible
        (ks.foldl (fun s k => (menuStep nItems total visible s k).1)
          (menuStep nItems total visible st MenuKey.tab).1)
        MenuKey.tab).1.scrollPos = max 0 (total - visible)
    ∧ (menuStep nItems total visible
        (ks.foldl (fun s k => (menuStep nItems total visible s k).1)
          (menuStep nItems total visible st MenuKey.tab).1)
        MenuKey.tab).1.logFocused = false := by
  have h1 : (menuStep nItems total visible st MenuKey.tab).1.logFocused = true := by
    simp [menuStep, menuStepDialog, hfoc]
  have h2 := foldl_menuStep_keeps_focus nItems total visible ks
    (menuStep nItems total visible st MenuKey.tab).1 h1 hks
  exact menuStep_tab_focused nItems total visible _ h2

/-- C9 witness: with 10 log lines and 6 visible, Tab into the log, two Up
presses and a Home (offset left at 0), then Tab: the offset is reset to 4
and focus returns to the dialog. -/
theorem tab_resets_scroll_witness :
    (menuStep 3 10 6
        ([MenuKey.up, MenuKey.up, MenuKey.home].foldl
          (fun s k => (menuStep 3 10 6 s k).1) (menuStep 3 10 6 ⟨0, false, 3⟩ MenuKey.tab).1)
        MenuKey.tab).1.scrollPos = 4
    ∧ (menuStep 3 10 6
        ([MenuKey.up, MenuKey.up, MenuKey.home].foldl
          (fun s k => (menuStep 3 10 6 s k).1) (menuStep 3 10 6 ⟨0, false, 3⟩ MenuKey.tab).1)
        MenuKey.tab).1.logFocused = false := by
  have h := tab_resets_scroll 3 10 6 ⟨0, false, 3⟩
    [MenuKey.up, MenuKey.up, MenuKey.home] rfl (by decide)
  refine ⟨?_, h.2⟩
  rw [h.1]
  norm_num

/-- C10: calling the menu dialog with an empty item list returns the
cancellation sentinel -1 for every key sequence — including the empty one,
so no input is consumed or waited for — and that result coincides with the
one produced by pressing Esc in a nonempty menu. -/
theorem get_menu_choice_empty (total visible : ℤ) (keys : List MenuKey) :
    get_menu_choice [] total visible keys = some (-1)
    ∧ get_menu_choice ["item"] total visible (MenuKey.esc :: keys)
        = some (-1) := by
  constructor
  · simp [get_menu_choice]
  · simp [get_menu_choice, menuLoop, menuStep, menuStepDialog]

end Ddi

